import Mathlib

/-!
Verification development for the orioledb custom scan provider
(`src/tableam/scan.c`).  The definitions below are a shallow embedding of the
data model and operations of that file: optimizer paths and the path-rewrite
hooks, the primary-key index augmentation, the custom-scan runtime state
machine (begin / exec / rescan / end) with the process-wide `ea_counters`
slot, and the explain-tree walker.  External PostgreSQL collaborators
(`match_restriction_clauses_to_index`, `o_make_bitmap_scan`,
`o_exec_bitmap_fetch`, `o_exec_project`, `ExplainNode`, buffer surgery on
`ExplainState`) are modelled as opaque parameters: nothing is proved about
their internals, only about how this file's code drives them.
-/

namespace OrioleScan

/-- Tag of an orioledb custom path descriptor (`OPathTag` in scan.c);
currently the single variant `O_BitmapHeapPath`. -/
inductive OPathTag where
  | O_BitmapHeapPath
  deriving DecidableEq, Repr

/-- The optimizer-path fields that `transform_path` copies from the source
path onto the new `CustomPath` (parent, pathtarget, param_info, rows,
startup_cost, total_cost, pathkeys, parallel_aware, parallel_safe,
parallel_workers).  Pointers are modelled as opaque `Nat` identifiers and
costs as `Nat` (only copied, never computed with). -/
structure PathCore where
  parent : Nat
  pathtarget : Nat
  param_info : Option Nat
  rows : Nat
  startup_cost : Nat
  total_cost : Nat
  pathkeys : List Nat
  parallel_aware : Bool
  parallel_safe : Bool
  parallel_workers : Nat
  deriving DecidableEq, Repr

/-- An optimizer path as the rewrite hook classifies it by node tag:
`plainPath` is a `T_Path` node (with `sampleScan = true` when its `pathtype`
is `T_SampleScan`), `bitmapHeapPath` is a `T_BitmapHeapPath` node,
`indexPath` stands for every other node tag left untouched by the loop, and
`customPath` is the `CustomPath` produced by `transform_path`, carrying its
`custom_private` descriptor list and its `custom_paths` list. -/
inductive OptPath where
  | plainPath (core : PathCore) (sampleScan : Bool)
  | bitmapHeapPath (core : PathCore)
  | indexPath (core : PathCore)
  | customPath (core : PathCore) (custom_private : List OPathTag)
      (custom_paths : List OptPath)

/-- The shared `Path` fields of any node (the `path` member in scan.c). -/
def pathCore : OptPath → PathCore
  | .plainPath c _ => c
  | .bitmapHeapPath c => c
  | .indexPath c => c
  | .customPath c _ _ => c

/-- `IsA(path, Path)` — the node tag is `T_Path`. -/
def isPlainPath : OptPath → Bool
  | .plainPath _ _ => true
  | _ => false

/-- `IsA(path, Path) && path->pathtype == T_SampleScan`. -/
def isSamplePath : OptPath → Bool
  | .plainPath _ s => s
  | _ => false

/-- `IsA(path, BitmapHeapPath)`. -/
def isBitmapHeapPath : OptPath → Bool
  | .bitmapHeapPath _ => true
  | _ => false

/-- `IsA(path, CustomPath)` (result of `transform_path`). -/
def isCustomPath : OptPath → Bool
  | .customPath _ _ _ => true
  | _ => false

/-- `transform_path` (scan.c:147): builds a `CustomPath` copying parent,
pathtarget, param_info, rows, startup_cost, total_cost, pathkeys,
parallel_aware, parallel_safe and parallel_workers from the source path,
sets `custom_paths = list_make1(src_path)`, and — when the source is a
`BitmapHeapPath` — attaches a freshly allocated `OBitmapHeapPath`
descriptor in `custom_private`. -/
def transform_path (src : OptPath) : OptPath :=
  OptPath.customPath
    { parent := (pathCore src).parent
      pathtarget := (pathCore src).pathtarget
      param_info := (pathCore src).param_info
      rows := (pathCore src).rows
      startup_cost := (pathCore src).startup_cost
      total_cost := (pathCore src).total_cost
      pathkeys := (pathCore src).pathkeys
      parallel_aware := (pathCore src).parallel_aware
      parallel_safe := (pathCore src).parallel_safe
      parallel_workers := (pathCore src).parallel_workers }
    (match src with
      | .bitmapHeapPath _ => [OPathTag.O_BitmapHeapPath]
      | _ => [])
    [src]

/-- Result of running the pathlist loop of `orioledb_set_rel_pathlist_hook`:
the (possibly partially rewritten) list together with the pending
`ereport(ERROR)` if a sample-scan path was reached.  `errored = some msg`
models the `ereport(ERROR, ...)` raised for `T_SampleScan`; the in-place
mutations performed before reaching the erroring element persist in
`pathlist`, and elements at and after it are left untouched. -/
structure RewriteResult where
  pathlist : List OptPath
  errored : Option String

/-- The TABLESAMPLE rejection message of scan.c:324 (errmsg text, with the
relation name interpolated). -/
def sampleScanError (relname : String) : String :=
  "orioledb table \"" ++ relname ++ "\" does not support TABLESAMPLE"

/-- The `while (i < list_length(rel->pathlist))` loop of
`orioledb_set_rel_pathlist_hook` (scan.c:314): a `T_Path` node whose
pathtype is `T_SampleScan` raises the feature-not-supported error and stops
everything; a `T_BitmapHeapPath` node is deleted and a `transform_path`
result inserted at the same position; every other node is kept and the
cursor advances. -/
def rewrite_pathlist (relname : String) : List OptPath → RewriteResult
  | [] => { pathlist := [], errored := none }
  | p :: rest =>
    if isSamplePath p then
      { pathlist := p :: rest, errored := some (sampleScanError relname) }
    else
      let tail := rewrite_pathlist relname rest
      { pathlist := (if isBitmapHeapPath p then transform_path p else p) :: tail.pathlist
        errored := tail.errored }

/-- The `while (i < list_length(rel->partial_pathlist))` loop
(scan.c:351): every node that is not a plain `T_Path` is deleted from the
partial path list (parallel bitmap heap scan is not implemented yet); plain
paths are kept. -/
def prune_par_pathlist : List OptPath → List OptPath
  | [] => []
  | p :: rest =>
    if isPlainPath p then p :: prune_par_pathlist rest
    else prune_par_pathlist rest

/-- `rtekind` values distinguished by the hooks (`RTE_RELATION` vs the
rest). -/
inductive RteKind where
  | rteRelation
  | rteOtherKind
  deriving DecidableEq, Repr

/-- `relkind` values distinguished by the hooks (`RELKIND_RELATION`,
`RELKIND_MATVIEW`, others). -/
inductive RelKind where
  | relkindRelation
  | relkindMatview
  | relkindOther
  deriving DecidableEq, Repr

/-- Inputs of `orioledb_set_rel_pathlist_hook` (scan.c:293): the range
table entry's kinds, whether the opened relation is an orioledb relation,
its name, the two path lists of the `RelOptInfo`, and whether a previously
installed `set_rel_pathlist_hook` is registered in
`old_set_rel_pathlist_hook`. -/
structure SetRelPathlistInput where
  rtekind : RteKind
  relkind : RelKind
  isOrioledbRel : Bool
  relname : String
  pathlist : List OptPath
  par_pathlist : List OptPath
  oldHookRegistered : Bool

/-- Observable outcome of one invocation of
`orioledb_set_rel_pathlist_hook`: the two resulting path lists, how many
times the previously installed hook was invoked, and the pending error (an
`ereport(ERROR)` unwinds before the old-hook call at scan.c:375). -/
structure SetRelPathlistOutput where
  pathlist : List OptPath
  par_pathlist : List OptPath
  oldHookCalls : Nat
  errored : Option String

/-- `orioledb_set_rel_pathlist_hook` (scan.c:293): for a plain-relation or
matview RTE over an orioledb relation it rewrites the pathlist and prunes
the partial pathlist; in every case that completes normally it finally
calls `old_set_rel_pathlist_hook` once if that hook pointer is non-null.
A sample-scan `ereport(ERROR)` aborts before the partial-list loop and
before the old-hook call. -/
def orioledb_set_rel_pathlist_hook (inp : SetRelPathlistInput) :
    SetRelPathlistOutput :=
  if inp.rtekind = RteKind.rteRelation ∧
      (inp.relkind = RelKind.relkindRelation ∨
        inp.relkind = RelKind.relkindMatview) then
    if inp.isOrioledbRel then
      let rw := rewrite_pathlist inp.relname inp.pathlist
      match rw.errored with
      | some e =>
        { pathlist := rw.pathlist
          par_pathlist := inp.par_pathlist
          oldHookCalls := 0
          errored := some e }
      | none =>
        { pathlist := rw.pathlist
          par_pathlist := prune_par_pathlist inp.par_pathlist
          oldHookCalls := if inp.oldHookRegistered then 1 else 0
          errored := none }
    else
      { pathlist := inp.pathlist
        par_pathlist := inp.par_pathlist
        oldHookCalls := if inp.oldHookRegistered then 1 else 0
        errored := none }
  else
    { pathlist := inp.pathlist
      par_pathlist := inp.par_pathlist
      oldHookCalls := if inp.oldHookRegistered then 1 else 0
      errored := none }

/-- The per-attribute catalog data `TupleDescAttr` yields for the pk field
(`atttypid`, `atttypmod`, `attcollation`), used to build the appended index
target-list `Var`. -/
structure FormAttr where
  atttypid : Nat
  atttypmod : Int
  attcollation : Nat
  deriving DecidableEq, Repr

/-- Fallback attribute (the C code indexes `rd_att` with a valid attnum;
the default is never consulted for well-formed inputs). -/
def defaultFormAttr : FormAttr := { atttypid := 0, atttypmod := 0, attcollation := 0 }

/-- The `Var` node produced by `makeVar` at scan.c:251. -/
structure OVar where
  varno : Nat
  varattno : Int
  vartype : Nat
  vartypmod : Int
  varcollid : Nat
  varlevelsup : Nat
  deriving DecidableEq, Repr

/-- The `TargetEntry` produced by `makeTargetEntry` at scan.c:260. -/
structure OTargetEntry where
  expr : OVar
  resno : Nat
  resname : Option Nat
  resjunk : Bool
  deriving DecidableEq, Repr

/-- The slice of `IndexOptInfo` that
`orioledb_set_plain_rel_pathlist_hook` reads and mutates: `rel->relid` (the
range-table index used as `varno`), the `indexkeys` array (attribute
numbers, `ncolumns` is its length), the parallel `canreturn` array, the
`indextlist`, and the partial-index fields `indpred`/`predOK` (here
`hasPred` models `indpred != NIL`). -/
structure IndexOptInfo where
  relIndex : Nat
  indexkeys : List Int
  canreturn : List Bool
  indextlist : List OTargetEntry
  hasPred : Bool
  predOK : Bool
  deriving DecidableEq, Repr

/-- The `TargetEntry` appended for a missing primary-key attribute
(scan.c:248-263): a `Var` with varno `index->rel->relid`, varattno
`pk_field->attnum + 1`, type/typmod/collation from the relation's tuple
descriptor entry for the pk attribute, varlevelsup 0; resno is the new
`ncolumns` (old column count plus one), no name, not junk. -/
def pkTargetEntry (attrs : List FormAttr) (pkAttnum : Nat)
    (idx : IndexOptInfo) : OTargetEntry :=
  { expr :=
      { varno := idx.relIndex
        varattno := Int.ofNat pkAttnum + 1
        vartype := (attrs.getD pkAttnum defaultFormAttr).atttypid
        vartypmod := (attrs.getD pkAttnum defaultFormAttr).atttypmod
        varcollid := (attrs.getD pkAttnum defaultFormAttr).attcollation
        varlevelsup := 0 }
    resno := idx.indexkeys.length + 1
    resname := none
    resjunk := false }

/-- The body of the inner `foreach(lc, rel->indexlist)` at scan.c:217 for
one primary-key field: if attribute `pk_field->attnum + 1` already occurs
in `index->indexkeys` nothing happens; otherwise `ncolumns` grows by one,
the attribute number is appended to `indexkeys`, `true` is appended to
`canreturn`, and the `pkTargetEntry` is appended to `indextlist`. -/
def augmentIndex (attrs : List FormAttr) (pkAttnum : Nat) (idx : IndexOptInfo) :
    IndexOptInfo :=
  if (Int.ofNat pkAttnum + 1) ∈ idx.indexkeys then idx
  else
    { idx with
      indexkeys := idx.indexkeys ++ [Int.ofNat pkAttnum + 1]
      canreturn := idx.canreturn ++ [true]
      indextlist := idx.indextlist ++ [pkTargetEntry attrs pkAttnum idx] }

/-- The double loop at scan.c:211: for each field of the primary index (in
order), every index of `rel->indexlist` is augmented with that field. -/
def augmentAll (attrs : List FormAttr) (pkFields : List Nat)
    (indexlist : List IndexOptInfo) : List IndexOptInfo :=
  pkFields.foldl (fun idxs pk => idxs.map (augmentIndex attrs pk)) indexlist

/-- `index->indpred != NIL && !index->predOK` fails, i.e. the index is not
skipped by the `continue` at scan.c:274. -/
def indexQualifies (idx : IndexOptInfo) : Bool :=
  !(idx.hasPred && !idx.predOK)

/-- The second `foreach(lc, rel->indexlist)` at scan.c:268: for every index
not skipped by the partial-index `continue`, `result` is overwritten with
`!rclauseset.nonempty`, where `rclauseset.nonempty` is set by the external
`match_restriction_clauses_to_index` exactly when at least one restriction
clause matches the index.  `cm c idx` models "restriction clause `c`
matches index `idx`"; `clauses` is `rel->baserestrictinfo`. -/
def hookMatchLoop (cm : Nat → IndexOptInfo → Bool) (clauses : List Nat) :
    List IndexOptInfo → Bool → Bool
  | [], result => result
  | idx :: rest, result =>
    if idx.hasPred && !idx.predOK then hookMatchLoop cm clauses rest result
    else hookMatchLoop cm clauses rest (!(clauses.any (fun c => cm c idx)))

/-- The last index of the list that the match loop does not skip, if any
(characterizes which index's verdict survives the overwriting). -/
def lastQualifying : List IndexOptInfo → Option IndexOptInfo
  | [] => none
  | idx :: rest =>
    match lastQualifying rest with
    | some j => some j
    | none => if idx.hasPred && !idx.predOK then none else some idx

/-- `orioledb_set_plain_rel_pathlist_hook` (scan.c:179): for a
plain-relation/matview RTE over an orioledb table with a primary key, it
(1) augments every index of `rel->indexlist` with the missing primary-key
attributes and (2) re-runs restriction-clause matching over the augmented
indexes, overwriting `result` per examined index; in all other cases the
index list is untouched and the initial `result = true` is returned.
Returns the final index list together with the boolean. -/
def orioledb_set_plain_rel_pathlist_hook (cm : Nat → IndexOptInfo → Bool)
    (clauses : List Nat) (rtekind : RteKind) (relkind : RelKind)
    (isOrioledbRel : Bool) (hasPrimary : Bool) (attrs : List FormAttr)
    (pkFields : List Nat) (indexlist : List IndexOptInfo) :
    List IndexOptInfo × Bool :=
  if rtekind = RteKind.rteRelation ∧
      (relkind = RelKind.relkindRelation ∨ relkind = RelKind.relkindMatview) then
    if isOrioledbRel then
      if hasPrimary then
        let idxs := augmentAll attrs pkFields indexlist
        (idxs, hookMatchLoop cm clauses idxs true)
      else (indexlist, true)
    else (indexlist, true)
  else (indexlist, true)

/-- Spec-side predicate, written from the claim's words and not from the
code: "all restriction clauses match (no restriction clause fails to match
the extended index set)" — every clause matches at least one index of the
extended index list. -/
def spec_allRestrictionClausesMatch (cm : Nat → IndexOptInfo → Bool)
    (clauses : List Nat) (indexlist : List IndexOptInfo) : Bool :=
  clauses.all (fun c => indexlist.any (fun idx => cm c idx))

/-- Tag of an orioledb custom plan (`OPlanTag`); the file handles the
single variant `O_BitmapHeapPlan`. -/
inductive OPlanTag where
  | O_BitmapHeapPlan
  deriving DecidableEq, Repr

/-- One `OEACallsCounters` counter set.  Modelled from the spec: the struct
itself and `eanalyze_counters_init` live outside `src/`; the spec says the
counters are per-index call/row statistics that initialization zeroes, so a
counter set is modelled as an opaque accumulated value with zero as the
initialized state. -/
structure OEACallsCounters where
  accumulated : Nat
  deriving DecidableEq, Repr

/-- A freshly initialized counter set (`palloc0` plus
`eanalyze_counters_init`). -/
def zeroEaCounters : OEACallsCounters := { accumulated := 0 }

/-- The `OBitmapHeapPlanState` runtime fields this file manipulates:
`typeoid`, whether `bitmapqualplanstate` was opened by `ExecInitNode`, the
per-index counter array (`none` models the null/freed pointer), the
captured snapshot, whether the scan's memory context is live, and the
lazily built bitmap scan cursor (`none` models `scan == NULL`). -/
structure OBitmapHeapPlanState where
  typeoid : Nat
  bitmapqualplanOpen : Bool
  eaCounters : Option (List OEACallsCounters)
  oSnapshot : Nat
  cxt : Bool
  scan : Option Nat
  deriving DecidableEq, Repr

/-- The `OCustomScanState` fields this file manipulates: the
instrumentation flag, the scan-level counter set, and the bitmap plan
state (the only `OPlanTag` variant). -/
structure OCustomScanState where
  useEaCounters : Bool
  eaCounters : OEACallsCounters
  planTag : OPlanTag
  bitmap : OBitmapHeapPlanState
  deriving DecidableEq, Repr

/-- Process-local picture: the scan state plus the process-wide
`ea_counters` slot (scan.c:92).  `ea_counters = none` models the null
pointer; `some c` models the slot pointing at a scan's counter set with
current contents `c`. -/
structure ProcState where
  st : OCustomScanState
  ea_counters : Option OEACallsCounters
  deriving DecidableEq, Repr

/-- The external collaborators the executor drives, kept opaque: the
bitmap-scan constructor `o_make_bitmap_scan` (from typeoid and snapshot to
a cursor), the fetch primitive `o_exec_bitmap_fetch` (cursor to optional
row and successor cursor), and generic projection `o_exec_project`. -/
structure Externals where
  o_make_bitmap_scan : Nat → Nat → Nat
  o_exec_bitmap_fetch : Nat → Option Nat × Nat
  o_exec_project : Option Nat → Option Nat

/-- `o_begin_custom_scan` (scan.c:490): records the instrumentation flag
(from `is_explain_analyze`), zero-initializes the scan-level counter set
when instrumentation is on (the node itself is `palloc0`ed), opens the
bitmap qual sub-plan, allocates and zero-initializes one per-index counter
set for each of the descriptor's `nIndices` indexes when instrumentation
is on, captures the snapshot and creates the scan memory context.  The
global `ea_counters` slot is not touched. -/
def o_begin_custom_scan (instrumented : Bool) (nIndices : Nat)
    (snapshot : Nat) (typeoid : Nat) : OCustomScanState :=
  { useEaCounters := instrumented
    eaCounters := zeroEaCounters
    planTag := OPlanTag.O_BitmapHeapPlan
    bitmap :=
      { typeoid := typeoid
        bitmapqualplanOpen := true
        eaCounters :=
          if instrumented then some (List.replicate nIndices zeroEaCounters)
          else none
        oSnapshot := snapshot
        cxt := true
        scan := none } }

/-- First statements of `o_exec_custom_scan` (scan.c:543): the process-wide
`ea_counters` slot is assigned before anything else — to the scan's own
counter set when `useEaCounters`, to null otherwise. -/
def o_exec_set_slot (p : ProcState) : ProcState :=
  { p with
    ea_counters := if p.st.useEaCounters then some p.st.eaCounters else none }

/-- The bitmap branch of `o_exec_custom_scan` (scan.c:548): lazily builds
the bitmap scan cursor via `o_make_bitmap_scan` on first call, then pulls
the next slot via `o_exec_bitmap_fetch`. -/
def o_exec_fetch (ext : Externals) (p : ProcState) : ProcState × Option Nat :=
  let cursor :=
    match p.st.bitmap.scan with
    | none => ext.o_make_bitmap_scan p.st.bitmap.typeoid p.st.bitmap.oSnapshot
    | some c => c
  let r := ext.o_exec_bitmap_fetch cursor
  ({ p with st := { p.st with bitmap := { p.st.bitmap with scan := some r.2 } } },
    r.1)

/-- `o_exec_custom_scan` (scan.c:537): set the `ea_counters` slot, run the
bitmap fetch (the slot stays `NULL`-initialized when no fetch yields a
row), and pass whatever slot resulted — including a null one — through
`o_exec_project`, returning projection's output. -/
def o_exec_custom_scan (ext : Externals) (p : ProcState) :
    ProcState × Option Nat :=
  let p1 := o_exec_set_slot p
  let pr := o_exec_fetch ext p1
  (pr.1, ext.o_exec_project pr.2)

/-- `o_rescan_custom_scan` (scan.c:579): frees the bitmap scan cursor if
one exists, frees the per-index counter array whenever `useEaCounters` is
set (without reallocating it or nulling the pointer), and nulls the cursor
pointer.  The global slot and the rest of the state are untouched. -/
def o_rescan_custom_scan (p : ProcState) : ProcState :=
  { p with
    st := { p.st with
      bitmap := { p.st.bitmap with
        eaCounters :=
          if p.st.useEaCounters then none else p.st.bitmap.eaCounters
        scan := none } } }

/-- `o_end_custom_scan` (scan.c:602): closes the sub-plan if open, frees
the cursor if any, frees the per-index counter array when `useEaCounters`,
deletes the scan memory context, and finally nulls the process-wide
`ea_counters` slot. -/
def o_end_custom_scan (p : ProcState) : ProcState :=
  { st := { p.st with
      bitmap := { p.st.bitmap with
        bitmapqualplanOpen := false
        eaCounters :=
          if p.st.useEaCounters then none else p.st.bitmap.eaCounters
        cxt := false
        scan := none } }
    ea_counters := none }

/-- `n` consecutive Fetch calls (discarding the returned slots). -/
def iterFetch (ext : Externals) : Nat → ProcState → ProcState
  | 0, p => p
  | n + 1, p => iterFetch ext n (o_exec_custom_scan ext p).1

mutual

/-- The `PlanState` sub-plan trees the explain walker can reach: bitmap
OR, bitmap AND and bitmap index-probe nodes (each with the children the
generic `planstate_tree_walker` would visit), plus `otherState tag` for
every other `planstate->type`. -/
inductive PlanStateTree where
  | bitmapOrState (nplans : Nat) (children : PlanForest)
  | bitmapAndState (nplans : Nat) (children : PlanForest)
  | bitmapIndexScanState (indexid : Nat) (children : PlanForest)
  | otherState (tag : Nat) (children : PlanForest)

/-- A list of sibling sub-plan nodes. -/
inductive PlanForest where
  | nil
  | cons (t : PlanStateTree) (ts : PlanForest)

end

/-- The `elog(ERROR, "can t explain node: %d", planstate->type)` raised by
the default case of `o_explain_node` (scan.c:748); it carries the numeric
node tag. -/
inductive ExplainErr where
  | cantExplainNode (tag : Nat)
  deriving DecidableEq, Repr

mutual

/-- Control-flow skeleton of `o_explain_node` (scan.c:634): the three
bitmap node kinds render via the generic `ExplainNode` (with the fan-out
temporarily hidden) and then recurse into their children through
`planstate_tree_walker`; any other node kind raises the internal
`elog(ERROR, ...)` identifying the node tag.  The external buffer and
indentation surgery on `ExplainState` is elided — it returns to its
caller unchanged up to buffer contents and raises no error. -/
def o_explain_node : PlanStateTree → Except ExplainErr Unit
  | PlanStateTree.bitmapOrState _ cs => o_explain_children cs
  | PlanStateTree.bitmapAndState _ cs => o_explain_children cs
  | PlanStateTree.bitmapIndexScanState _ cs => o_explain_children cs
  | PlanStateTree.otherState tag _ =>
    Except.error (ExplainErr.cantExplainNode tag)

/-- `planstate_tree_walker` over the children: visits each child with
`o_explain_node`, propagating the first raised error. -/
def o_explain_children : PlanForest → Except ExplainErr Unit
  | PlanForest.nil => Except.ok ()
  | PlanForest.cons t ts =>
    match o_explain_node t with
    | Except.ok _ => o_explain_children ts
    | Except.error e => Except.error e

end

mutual

/-- The node kinds enumerated by `o_explain_node`'s switch: true when every
node of the tree is a bitmap OR / AND / index-probe node. -/
def supportedTree : PlanStateTree → Bool
  | PlanStateTree.bitmapOrState _ cs => supportedForest cs
  | PlanStateTree.bitmapAndState _ cs => supportedForest cs
  | PlanStateTree.bitmapIndexScanState _ cs => supportedForest cs
  | PlanStateTree.otherState _ _ => false

/-- `supportedTree` over a sibling list. -/
def supportedForest : PlanForest → Bool
  | PlanForest.nil => true
  | PlanForest.cons t ts => supportedTree t && supportedForest ts

end

/-! ## Helper lemmas -/

/-- A map that fixes every member of a list is the identity on it. -/
theorem map_fixes_of_mem {α : Type} (f : α → α) :
    ∀ l : List α, (∀ a ∈ l, f a = a) → l.map f = l := by
  intro l h
  induction l with
  | nil => rfl
  | cons a t ih =>
    simp only [List.map_cons]
    rw [h a (List.mem_cons_self a t), ih (fun b hb => h b (List.mem_cons_of_mem a hb))]

/-! ## Claim theorems -/

/-- C6: for an orioledb table, the partial-pathlist loop removes from the
partial (parallel) path list exactly the paths whose node tag is not a
plain `T_Path` — bitmap heap paths included — and retains the plain
sequential paths in order. -/
theorem c6_par_pathlist_keeps_only_plain :
    (∀ l : List OptPath, prune_par_pathlist l = l.filter (fun p => isPlainPath p))
    ∧ (∀ c, isPlainPath (OptPath.bitmapHeapPath c) = false)
    ∧ (∀ c s, isPlainPath (OptPath.plainPath c s) = true) := by
  refine ⟨?_, fun _ => rfl, fun _ _ => rfl⟩
  intro l
  induction l with
  | nil => rfl
  | cons p t ih =>
    by_cases hp : isPlainPath p = true
    · simp [prune_par_pathlist, List.filter_cons, hp, ih]
    · simp only [Bool.not_eq_true] at hp
      simp [prune_par_pathlist, List.filter_cons, hp, ih]

/-- C7: the process-wide `ea_counters` slot is assigned at the top of every
Fetch — to this scan's counter set when instrumentation is on, to null when
it is off — before the bitmap fetch pulls any row (`o_exec_custom_scan` is
the composite of `o_exec_set_slot` followed by the fetch), it is still so
assigned after the whole Fetch returns, End nulls it, and after any
Open / Fetch* / End sequence starting from a null slot it is null. -/
theorem c7_ea_counters_slot_protocol :
    (∀ p : ProcState, (o_exec_set_slot p).ea_counters
        = (if p.st.useEaCounters then some p.st.eaCounters else none))
    ∧ (∀ (ext : Externals) (p : ProcState),
        o_exec_custom_scan ext p
          = ((o_exec_fetch ext (o_exec_set_slot p)).1,
              ext.o_exec_project (o_exec_fetch ext (o_exec_set_slot p)).2))
    ∧ (∀ (ext : Externals) (p : ProcState),
        (o_exec_custom_scan ext p).1.ea_counters
          = (if p.st.useEaCounters then some p.st.eaCounters else none))
    ∧ (∀ p : ProcState, (o_end_custom_scan p).ea_counters = none)
    ∧ (∀ (ext : Externals) (n nIdx snap toid : Nat) (instr : Bool),
        (o_end_custom_scan (iterFetch ext n
            { st := o_begin_custom_scan instr nIdx snap toid
              ea_counters := none })).ea_counters = none) :=
  ⟨fun _ => rfl, fun _ _ => rfl, fun _ _ => rfl, fun _ => rfl,
    fun _ _ _ _ _ _ => rfl⟩

/-- C8: every Fetch passes its result through generic projection before
returning: the returned slot is exactly `o_exec_project` applied to the
slot produced by the bitmap-heap fetch, and when no bitmap-heap fetch
produced a row (the fetched slot is null) projection still runs on the
null slot and its output is what the caller receives. -/
theorem c8_projection_always_runs :
    (∀ (ext : Externals) (p : ProcState),
        (o_exec_custom_scan ext p).2
          = ext.o_exec_project ((o_exec_fetch ext (o_exec_set_slot p)).2))
    ∧ (∀ (ext : Externals) (p : ProcState),
        (o_exec_fetch ext (o_exec_set_slot p)).2 = none →
          (o_exec_custom_scan ext p).2 = ext.o_exec_project none) := by
  refine ⟨fun _ _ => rfl, fun ext p h => ?_⟩
  show ext.o_exec_project ((o_exec_fetch ext (o_exec_set_slot p)).2)
      = ext.o_exec_project none
  rw [h]

/-- External collaborators for the C8 witness: the fetch primitive yields
no row (end of scan) and projection is the identity. -/
def exhaustedExternals : Externals :=
  { o_make_bitmap_scan := fun _ _ => 0
    o_exec_bitmap_fetch := fun c => (none, c)
    o_exec_project := fun s => s }

/-- A freshly opened non-instrumented scan with a null global slot. -/
def freshProcState : ProcState :=
  { st := o_begin_custom_scan false 1 5 23, ea_counters := none }

/-- Witness for C8: at a concrete exhausted scan the fetched slot is null
and the returned slot is projection applied to the null slot. -/
theorem c8_projection_always_runs_witness :
    (o_exec_custom_scan exhaustedExternals freshProcState).2
      = exhaustedExternals.o_exec_project none :=
  c8_projection_always_runs.2 exhaustedExternals freshProcState rfl

mutual

/-- On a tree built only from the three supported bitmap node kinds the
walker completes without raising. -/
theorem supported_node_ok (t : PlanStateTree) (h : supportedTree t = true) :
    o_explain_node t = Except.ok () := by
  cases t with
  | bitmapOrState n cs =>
    rw [o_explain_node]
    exact supported_forest_ok cs (by rw [supportedTree] at h; exact h)
  | bitmapAndState n cs =>
    rw [o_explain_node]
    exact supported_forest_ok cs (by rw [supportedTree] at h; exact h)
  | bitmapIndexScanState n cs =>
    rw [o_explain_node]
    exact supported_forest_ok cs (by rw [supportedTree] at h; exact h)
  | otherState tag cs =>
    rw [supportedTree] at h
    exact absurd h (by simp)

/-- Forest version of `supported_node_ok`. -/
theorem supported_forest_ok (ts : PlanForest) (h : supportedForest ts = true) :
    o_explain_children ts = Except.ok () := by
  cases ts with
  | nil => rw [o_explain_children]
  | cons t rest =>
    rw [supportedForest, Bool.and_eq_true] at h
    rw [o_explain_children, supported_node_ok t h.1]
    exact supported_forest_ok rest h.2

end

/-- C9: any sub-plan node kind other than the supported bitmap shapes
(bitmap AND / bitmap OR / bitmap index probe) reaching the explain walker
raises the loud internal error carrying that node kind, while a tree made
only of supported kinds is walked without error (nothing is silently
skipped). -/
theorem c9_explain_walker_rejects_unknown_nodes :
    (∀ (tag : Nat) (cs : PlanForest),
        o_explain_node (PlanStateTree.otherState tag cs)
          = Except.error (ExplainErr.cantExplainNode tag))
    ∧ (∀ t : PlanStateTree, supportedTree t = true →
        o_explain_node t = Except.ok ()) :=
  ⟨fun tag cs => by rw [o_explain_node], supported_node_ok⟩

/-- Witness for C9: a concrete unsupported node errors with its tag, and a
concrete OR-over-probe tree walks cleanly. -/
theorem c9_explain_walker_rejects_unknown_nodes_witness :
    o_explain_node (PlanStateTree.otherState 42 PlanForest.nil)
        = Except.error (ExplainErr.cantExplainNode 42)
    ∧ o_explain_node (PlanStateTree.bitmapOrState 2
          (PlanForest.cons (PlanStateTree.bitmapIndexScanState 7 PlanForest.nil)
            (PlanForest.cons (PlanStateTree.bitmapIndexScanState 8 PlanForest.nil)
              PlanForest.nil))) = Except.ok () :=
  ⟨c9_explain_walker_rejects_unknown_nodes.1 42 PlanForest.nil,
    c9_explain_walker_rejects_unknown_nodes.2 _
      (by simp [supportedTree, supportedForest])⟩

/-- C10: whenever `orioledb_set_rel_pathlist_hook` finishes its own
processing normally — for any RTE kind, relation kind, and whether or not
the relation is an orioledb one — it ends by invoking the previously
installed pathlist hook exactly once if one was registered (and does not
invoke it otherwise). -/
theorem c10_old_hook_called_once (inp : SetRelPathlistInput)
    (h : (orioledb_set_rel_pathlist_hook inp).errored = none) :
    (orioledb_set_rel_pathlist_hook inp).oldHookCalls
      = (if inp.oldHookRegistered then 1 else 0) := by
  by_cases hg : inp.rtekind = RteKind.rteRelation ∧
      (inp.relkind = RelKind.relkindRelation ∨
        inp.relkind = RelKind.relkindMatview)
  · by_cases ho : inp.isOrioledbRel = true
    · cases hrw : (rewrite_pathlist inp.relname inp.pathlist).errored with
      | some e =>
        exfalso
        simp [orioledb_set_rel_pathlist_hook, hg, ho, hrw] at h
      | none =>
        simp [orioledb_set_rel_pathlist_hook, hg, ho, hrw]
    · simp only [Bool.not_eq_true] at ho
      simp [orioledb_set_rel_pathlist_hook, hg, ho]
  · simp [orioledb_set_rel_pathlist_hook, hg]

/-- A non-relation RTE with a registered previous hook, for the C10
witness. -/
def nonRelationInput : SetRelPathlistInput :=
  { rtekind := RteKind.rteOtherKind
    relkind := RelKind.relkindOther
    isOrioledbRel := false
    relname := "t"
    pathlist := []
    par_pathlist := []
    oldHookRegistered := true }

/-- Witness for C10: on a concrete non-relation input that completes
normally, the old hook is invoked exactly once. -/
theorem c10_old_hook_called_once_witness :
    (orioledb_set_rel_pathlist_hook nonRelationInput).oldHookCalls
      = (if nonRelationInput.oldHookRegistered then 1 else 0) :=
  c10_old_hook_called_once nonRelationInput rfl

/-- On a pathlist without sample-scan paths, the rewrite loop raises no
error and maps each element in place: bitmap heap paths become their
`transform_path` wrapper, everything else is kept. -/
theorem rewrite_pathlist_no_sample (relname : String) :
    ∀ l : List OptPath, l.all (fun p => !(isSamplePath p)) = true →
      rewrite_pathlist relname l
        = { pathlist :=
              l.map (fun p => if isBitmapHeapPath p then transform_path p else p)
            errored := none } := by
  intro l h
  induction l with
  | nil => rfl
  | cons p t ih =>
    rw [List.all_cons, Bool.and_eq_true] at h
    have hp : isSamplePath p = false := by
      cases hc : isSamplePath p
      · rfl
      · rw [hc] at h; exact absurd h.1 (by simp)
    rw [rewrite_pathlist, if_neg (by simp [hp]), ih h.2]
    rfl

/-- C4: on a pathlist free of sample-scan paths, every bitmap-heap-style
path is replaced in place (same ordinal position, list length preserved by
the element-wise map) by a custom-path wrapper whose path fields — rows,
startup cost, total cost, pathkeys, parallel awareness/safety/workers (and
parent, pathtarget, param_info) — equal those of the source path, carrying
a fresh `O_BitmapHeapPath` descriptor in `custom_private` and the source
path as the single nested path in `custom_paths`. -/
theorem c4_bitmap_paths_replaced_in_place (relname : String)
    (l : List OptPath) (h : l.all (fun p => !(isSamplePath p)) = true) :
    (rewrite_pathlist relname l).errored = none
    ∧ (rewrite_pathlist relname l).pathlist
        = l.map (fun p => if isBitmapHeapPath p then transform_path p else p)
    ∧ (∀ c : PathCore, transform_path (OptPath.bitmapHeapPath c)
        = OptPath.customPath c [OPathTag.O_BitmapHeapPath]
            [OptPath.bitmapHeapPath c]) := by
  rw [rewrite_pathlist_no_sample relname l h]
  exact ⟨rfl, rfl, fun c => rfl⟩

/-- Path fields used in the concrete pathlists below. -/
def examplePathCore : PathCore :=
  { parent := 0
    pathtarget := 3
    param_info := none
    rows := 10
    startup_cost := 1
    total_cost := 4
    pathkeys := [2]
    parallel_aware := false
    parallel_safe := true
    parallel_workers := 0 }

/-- Witness for C4: a concrete pathlist holding a bitmap heap path and a
plain sequential path is rewritten with the bitmap path replaced in place
and no error. -/
theorem c4_bitmap_paths_replaced_in_place_witness :
    (rewrite_pathlist "t"
        [OptPath.bitmapHeapPath examplePathCore,
          OptPath.plainPath examplePathCore false]).errored = none
    ∧ (rewrite_pathlist "t"
        [OptPath.bitmapHeapPath examplePathCore,
          OptPath.plainPath examplePathCore false]).pathlist
        = [OptPath.bitmapHeapPath examplePathCore,
            OptPath.plainPath examplePathCore false].map
            (fun p => if isBitmapHeapPath p then transform_path p else p)
    ∧ (∀ c : PathCore, transform_path (OptPath.bitmapHeapPath c)
        = OptPath.customPath c [OPathTag.O_BitmapHeapPath]
            [OptPath.bitmapHeapPath c]) :=
  c4_bitmap_paths_replaced_in_place "t"
    [OptPath.bitmapHeapPath examplePathCore,
      OptPath.plainPath examplePathCore false] (by rfl)

/-- Counterexample for C5 as stated: on a pathlist where a bitmap heap
path precedes the sample-scan path, the feature-not-supported failure is
raised, yet a custom path HAS already been substituted into the list (at
position 0), so the failure is not raised before any substitution. -/
theorem c5_counterexample_custom_path_before_error :
    (rewrite_pathlist "t"
        [OptPath.bitmapHeapPath examplePathCore,
          OptPath.plainPath examplePathCore true]).errored.isSome = true
    ∧ isCustomPath
        ((rewrite_pathlist "t"
            [OptPath.bitmapHeapPath examplePathCore,
              OptPath.plainPath examplePathCore true]).pathlist.getD 0
          (OptPath.plainPath examplePathCore false)) = true :=
  ⟨rfl, rfl⟩

/-- C5 (amended): reaching the first sample-scan path of the list raises
the feature-not-supported failure whose message names the table, fatal to
that statement's plan; no path at or after the sample path's position is
replaced (the loop stops there), while bitmap paths earlier in the list
have already been replaced in place when the failure is raised. -/
theorem c5_sample_scan_raises_error (relname : String)
    (l1 : List OptPath) (c : PathCore) (l2 : List OptPath)
    (h : l1.all (fun p => !(isSamplePath p)) = true) :
    rewrite_pathlist relname (l1 ++ OptPath.plainPath c true :: l2)
      = { pathlist :=
            l1.map (fun p => if isBitmapHeapPath p then transform_path p else p)
              ++ OptPath.plainPath c true :: l2
          errored := some (sampleScanError relname) } := by
  induction l1 with
  | nil => rfl
  | cons p t ih =>
    rw [List.all_cons, Bool.and_eq_true] at h
    have hp : isSamplePath p = false := by
      cases hc : isSamplePath p
      · rfl
      · rw [hc] at h; exact absurd h.1 (by simp)
    rw [List.cons_append, rewrite_pathlist, if_neg (by simp [hp]), ih h.2]
    rfl

/-- Witness for C5 (amended): a concrete one-element pathlist holding only
the sample-scan path is left unsubstituted and the failure is recorded. -/
theorem c5_sample_scan_raises_error_witness :
    rewrite_pathlist "t" ([] ++ OptPath.plainPath examplePathCore true :: [])
      = { pathlist :=
            ([] : List OptPath).map
              (fun p => if isBitmapHeapPath p then transform_path p else p)
              ++ OptPath.plainPath examplePathCore true :: []
          errored := some (sampleScanError "t") } :=
  c5_sample_scan_raises_error "t" [] examplePathCore [] (by rfl)

/-- Augmenting with a pk field makes its attribute number a member of the
index keys. -/
theorem augmentIndex_mem (attrs : List FormAttr) (pk : Nat)
    (idx : IndexOptInfo) :
    (Int.ofNat pk + 1) ∈ (augmentIndex attrs pk idx).indexkeys := by
  unfold augmentIndex
  split
  · assumption
  · simp

/-- Augmentation only appends: existing key members persist. -/
theorem augmentIndex_preserves_mem (attrs : List FormAttr) (pk : Nat)
    (x : Int) (idx : IndexOptInfo) (h : x ∈ idx.indexkeys) :
    x ∈ (augmentIndex attrs pk idx).indexkeys := by
  unfold augmentIndex
  split
  · exact h
  · simp [h]

/-- The outer pk loop: `augmentAll` over `pk :: rest` is `augmentAll` over
`rest` after mapping the `pk` augmentation over the list. -/
theorem augmentAll_cons (attrs : List FormAttr) (pk : Nat) (rest : List Nat)
    (l : List IndexOptInfo) :
    augmentAll attrs (pk :: rest) l
      = augmentAll attrs rest (l.map (augmentIndex attrs pk)) := rfl

/-- Key membership holding of every index is preserved by the whole outer
loop. -/
theorem augmentAll_preserves_mem (attrs : List FormAttr) (x : Int) :
    ∀ (pks : List Nat) (l : List IndexOptInfo),
      (∀ idx ∈ l, x ∈ idx.indexkeys) →
      ∀ idx ∈ augmentAll attrs pks l, x ∈ idx.indexkeys := by
  intro pks
  induction pks with
  | nil => intro l h idx hidx; exact h idx hidx
  | cons pk rest ih =>
    intro l h idx hidx
    rw [augmentAll_cons] at hidx
    refine ih (l.map (augmentIndex attrs pk)) ?_ idx hidx
    intro j hj
    obtain ⟨a, ha, rfl⟩ := List.mem_map.mp hj
    exact augmentIndex_preserves_mem attrs pk x a (h a ha)

/-- Completeness of the double loop: after `augmentAll`, every index
contains the attribute number of every primary-key field. -/
theorem augmentAll_complete (attrs : List FormAttr) :
    ∀ (pks : List Nat) (l : List IndexOptInfo) (pk : Nat), pk ∈ pks →
      ∀ idx ∈ augmentAll attrs pks l, (Int.ofNat pk + 1) ∈ idx.indexkeys := by
  intro pks
  induction pks with
  | nil => intro l pk hpk; exact absurd hpk (List.not_mem_nil pk)
  | cons q rest ih =>
    intro l pk hpk idx hidx
    rw [augmentAll_cons] at hidx
    rcases List.mem_cons.mp hpk with hq | hrest
    · subst hq
      refine augmentAll_preserves_mem attrs _ rest
        (l.map (augmentIndex attrs pk)) ?_ idx hidx
      intro j hj
      obtain ⟨a, _, rfl⟩ := List.mem_map.mp hj
      exact augmentIndex_mem attrs pk a
    · exact ih (l.map (augmentIndex attrs q)) pk hrest idx hidx

/-- An index that already contains the pk attribute is left unchanged. -/
theorem augmentIndex_noop (attrs : List FormAttr) (pk : Nat)
    (idx : IndexOptInfo) (h : (Int.ofNat pk + 1) ∈ idx.indexkeys) :
    augmentIndex attrs pk idx = idx := by
  unfold augmentIndex
  exact if_pos h

/-- When every index of the list already contains every pk attribute the
whole double loop is a no-op. -/
theorem augmentAll_noop (attrs : List FormAttr) :
    ∀ (pks : List Nat) (l : List IndexOptInfo),
      (∀ pk ∈ pks, ∀ idx ∈ l, (Int.ofNat pk + 1) ∈ idx.indexkeys) →
      augmentAll attrs pks l = l := by
  intro pks
  induction pks with
  | nil => intro l _; rfl
  | cons q rest ih =>
    intro l h
    rw [augmentAll_cons,
      map_fixes_of_mem (augmentIndex attrs q) l
        (fun idx hidx =>
          augmentIndex_noop attrs q idx
            (h q (List.mem_cons_self q rest) idx hidx))]
    exact ih l (fun pk hpk idx hidx =>
      h pk (List.mem_cons_of_mem q hpk) idx hidx)

/-- C3: after the augmentation step every index contains every primary-key
attribute among its key columns; a missing primary-key column is appended
to the key columns, marked returnable (`canreturn` gets `true`), and given
a target-list entry (`pkTargetEntry`); an index already containing the
column is unchanged; and re-running the whole augmentation on its own
output changes nothing (idempotence). -/
theorem c3_pk_augmentation_complete_and_idempotent :
    (∀ (attrs : List FormAttr) (pks : List Nat) (l : List IndexOptInfo),
      ∀ pk ∈ pks, ∀ idx ∈ augmentAll attrs pks l,
        (Int.ofNat pk + 1) ∈ idx.indexkeys)
    ∧ (∀ (attrs : List FormAttr) (pk : Nat) (idx : IndexOptInfo),
        (Int.ofNat pk + 1) ∉ idx.indexkeys →
          augmentIndex attrs pk idx
            = { idx with
                indexkeys := idx.indexkeys ++ [Int.ofNat pk + 1]
                canreturn := idx.canreturn ++ [true]
                indextlist := idx.indextlist ++ [pkTargetEntry attrs pk idx] })
    ∧ (∀ (attrs : List FormAttr) (pk : Nat) (idx : IndexOptInfo),
        (Int.ofNat pk + 1) ∈ idx.indexkeys → augmentIndex attrs pk idx = idx)
    ∧ (∀ (attrs : List FormAttr) (pks : List Nat) (l : List IndexOptInfo),
        augmentAll attrs pks (augmentAll attrs pks l)
          = augmentAll attrs pks l) := by
  refine ⟨fun attrs pks l => augmentAll_complete attrs pks l,
    fun attrs pk idx h => ?_, augmentIndex_noop, fun attrs pks l => ?_⟩
  · unfold augmentIndex
    exact if_neg h
  · exact augmentAll_noop attrs pks (augmentAll attrs pks l)
      (fun pk hpk idx hidx =>
        augmentAll_complete attrs pks l pk hpk idx hidx)

/-- A secondary index on attribute 2 of a two-column table whose primary
key is attribute 1 (0-based pk attnum 0), for the C3 witness. -/
def exampleSecondaryIndex : IndexOptInfo :=
  { relIndex := 1
    indexkeys := [2]
    canreturn := [false]
    indextlist := []
    hasPred := false
    predOK := false }

/-- Witness for C3: augmenting the concrete secondary index with pk
attnum 0 appends key 1, returnable, with its target entry — as the second
conjunct of the claim theorem states at this input. -/
theorem c3_pk_augmentation_complete_and_idempotent_witness :
    augmentIndex [] 0 exampleSecondaryIndex
      = { exampleSecondaryIndex with
          indexkeys := exampleSecondaryIndex.indexkeys ++ [Int.ofNat 0 + 1]
          canreturn := exampleSecondaryIndex.canreturn ++ [true]
          indextlist := exampleSecondaryIndex.indextlist
            ++ [pkTargetEntry [] 0 exampleSecondaryIndex] } :=
  c3_pk_augmentation_complete_and_idempotent.2.1 [] 0 exampleSecondaryIndex
    (by decide)

/-- The match loop's accumulator is overwritten at every non-skipped
index, so the final value is determined by the last qualifying index
alone (the initial `true` survives only when no index qualifies). -/
theorem hookMatchLoop_last_index (cm : Nat → IndexOptInfo → Bool)
    (clauses : List Nat) :
    ∀ (l : List IndexOptInfo) (acc : Bool),
      hookMatchLoop cm clauses l acc
        = (match lastQualifying l with
           | none => acc
           | some idx => !(clauses.any (fun c => cm c idx))) := by
  intro l
  induction l with
  | nil => intro acc; rfl
  | cons idx rest ih =>
    intro acc
    rw [hookMatchLoop, lastQualifying]
    by_cases hq : (idx.hasPred && !idx.predOK) = true
    · rw [if_pos hq, ih acc]
      cases hlast : lastQualifying rest with
      | none => simp [hlast, hq]
      | some j => simp [hlast]
    · rw [if_neg hq, ih (!(clauses.any (fun c => cm c idx)))]
      cases hlast : lastQualifying rest with
      | none =>
        simp only [Bool.not_eq_true] at hq
        simp [hlast, hq]
      | some j => simp [hlast]

/-- Index over range-table member 1, no predicate, keyed on attribute 1
(the primary-key attribute). -/
def exampleIndexA : IndexOptInfo :=
  { relIndex := 1
    indexkeys := [1]
    canreturn := [true]
    indextlist := []
    hasPred := false
    predOK := false }

/-- A second index, distinguishable from `exampleIndexA` by its
range-table member, also keyed on the primary-key attribute. -/
def exampleIndexB : IndexOptInfo :=
  { relIndex := 2
    indexkeys := [1]
    canreturn := [true]
    indextlist := []
    hasPred := false
    predOK := false }

/-- Clause matcher for the counterexample: every clause matches every
index. -/
def cmEveryClause : Nat → IndexOptInfo → Bool := fun _ _ => true

/-- Clause matcher: only clause 0 matches (any index). -/
def cmOnlyClauseZero : Nat → IndexOptInfo → Bool := fun c _ => c == 0

/-- Clause matcher: every clause matches exactly the index over
range-table member 1. -/
def cmOnlyIndexA : Nat → IndexOptInfo → Bool := fun _ idx => idx.relIndex == 1

/-- Counterexample for C1 as stated.  Three concrete runs of
`orioledb_set_plain_rel_pathlist_hook` (primary key attnum 0, so each
index already contains the pk attribute and augmentation is the
identity): (a) every restriction clause matches the extended index, yet
the returned boolean is `false`, so the return value is not `true`
exactly when all clauses match; (b) with a clause that fails to match,
the returned boolean is again `false`, so the negated return value is
not `true` exactly when all clauses match either; (c) the same two-index
set in the two orders yields the two different booleans while in both
orders every clause matches the extended index set — the verdict depends
on iteration order (it is overwritten per index, reflecting only the
last index examined), hence equals no function of clause/index matching
alone. -/
theorem c1_counterexample_verdict_not_all_match :
    ((orioledb_set_plain_rel_pathlist_hook cmEveryClause [0]
        RteKind.rteRelation RelKind.relkindRelation true true []
        [0] [exampleIndexA]).2 = false
      ∧ spec_allRestrictionClausesMatch cmEveryClause [0]
          (orioledb_set_plain_rel_pathlist_hook cmEveryClause [0]
            RteKind.rteRelation RelKind.relkindRelation true true []
            [0] [exampleIndexA]).1 = true)
    ∧ ((orioledb_set_plain_rel_pathlist_hook cmOnlyClauseZero [0, 1]
        RteKind.rteRelation RelKind.relkindRelation true true []
        [0] [exampleIndexA]).2 = false
      ∧ spec_allRestrictionClausesMatch cmOnlyClauseZero [0, 1]
          (orioledb_set_plain_rel_pathlist_hook cmOnlyClauseZero [0, 1]
            RteKind.rteRelation RelKind.relkindRelation true true []
            [0] [exampleIndexA]).1 = false)
    ∧ ((orioledb_set_plain_rel_pathlist_hook cmOnlyIndexA [0]
        RteKind.rteRelation RelKind.relkindRelation true true []
        [0] [exampleIndexA, exampleIndexB]).2 = true
      ∧ (orioledb_set_plain_rel_pathlist_hook cmOnlyIndexA [0]
        RteKind.rteRelation RelKind.relkindRelation true true []
        [0] [exampleIndexB, exampleIndexA]).2 = false
      ∧ spec_allRestrictionClausesMatch cmOnlyIndexA [0]
          [exampleIndexA, exampleIndexB] = true
      ∧ spec_allRestrictionClausesMatch cmOnlyIndexA [0]
          [exampleIndexB, exampleIndexA] = true) := by
  decide

/-- C1 (amended): after the augmentation step the hook does re-run
restriction-clause matching against the extended indexes, but the boolean
it returns is overwritten at each index, so it reports only the verdict of
the last examined index whose predicate test does not skip it: the
returned boolean is `true` iff no restriction clause matches that last
qualifying extended index (and `true` when no index qualifies); it is not
the conjunction "all restriction clauses match" over the extended index
set. -/
theorem c1_verdict_is_last_qualifying_index (cm : Nat → IndexOptInfo → Bool)
    (clauses : List Nat) (relkind : RelKind) (attrs : List FormAttr)
    (pks : List Nat) (idxs : List IndexOptInfo)
    (hrk : relkind = RelKind.relkindRelation ∨ relkind = RelKind.relkindMatview) :
    (orioledb_set_plain_rel_pathlist_hook cm clauses RteKind.rteRelation
        relkind true true attrs pks idxs).2
      = (match lastQualifying (augmentAll attrs pks idxs) with
         | none => true
         | some idx => !(clauses.any (fun c => cm c idx))) := by
  unfold orioledb_set_plain_rel_pathlist_hook
  rw [if_pos ⟨rfl, hrk⟩, if_pos rfl, if_pos rfl]
  exact hookMatchLoop_last_index cm clauses (augmentAll attrs pks idxs) true

/-- Witness for C1 (amended): concrete run where the last qualifying index
is matched by the only clause, so the hook returns `false`. -/
theorem c1_verdict_is_last_qualifying_index_witness :
    (orioledb_set_plain_rel_pathlist_hook cmEveryClause [0]
        RteKind.rteRelation RelKind.relkindRelation true true []
        [0] [exampleIndexA]).2
      = (match lastQualifying (augmentAll [] [0] [exampleIndexA]) with
         | none => true
         | some idx => !([0].any (fun c => cmEveryClause c idx))) :=
  c1_verdict_is_last_qualifying_index cmEveryClause [0]
    RelKind.relkindRelation [] [0] [exampleIndexA] (Or.inl rfl)

/-- C2 at its failing input: `o_begin_custom_scan` under instrumentation
allocates one zero-initialized counter set per index (here `nIndices = 2`)
and none otherwise — but `o_rescan_custom_scan` frees the per-index
counter array of an instrumented scan without reallocating it, so
immediately after Rescan, before any Fetch, no counter sets exist even
though instrumentation is on. -/
theorem c2_rescan_frees_counters :
    (∀ (n snap toid : Nat),
      (o_begin_custom_scan true n snap toid).bitmap.eaCounters
        = some (List.replicate n zeroEaCounters))
    ∧ (∀ (n snap toid : Nat),
      (o_begin_custom_scan false n snap toid).bitmap.eaCounters = none)
    ∧ (o_begin_custom_scan true 2 7 11).bitmap.eaCounters
        = some [zeroEaCounters, zeroEaCounters]
    ∧ (o_rescan_custom_scan
        { st := o_begin_custom_scan true 2 7 11
          ea_counters := none }).st.useEaCounters = true
    ∧ (o_rescan_custom_scan
        { st := o_begin_custom_scan true 2 7 11
          ea_counters := none }).st.bitmap.eaCounters = none :=
  ⟨fun _ _ _ => rfl, fun _ _ _ => rfl, rfl, rfl, rfl⟩

end OrioleScan
